import Mathlib

/-!
Verification of the printable contact sheet generator.

The source program (a single Node script) builds a 6x6 thumbnail grid plus a
text footer on a square white canvas.  Below, the pure computational content of
that script is embedded shallowly: the layout constants, the grid placement
loop of `createContactSheet`, the rotation and contain-fit thumbnail pipeline,
the footer line layout of `createFooterSVG`, the XML escaping of `escapeXml`,
and the directory filtering of `getImages`.  Image decoding and the sharp
resize library are modelled by their documented input/output behaviour
(dimensions and success/failure), which is all the layout-level properties
refer to.
-/

namespace ContactSheet

/-- `const DPI = 300` -/
def DPI : ℕ := 300

/-- `const SIZE_MM = 120` -/
def SIZE_MM : ℕ := 120

/-- `const SIZE_INCHES = SIZE_MM / 25.4` -/
def SIZE_INCHES : ℚ := (SIZE_MM : ℚ) / 25.4

/-- `const IMAGE_SIZE = Math.round(SIZE_INCHES * DPI)` -/
def IMAGE_SIZE : ℕ := (round (SIZE_INCHES * (DPI : ℚ))).toNat

/-- `const GRID_ROWS = 6` -/
def GRID_ROWS : ℕ := 6

/-- `const GRID_COLS = 6` -/
def GRID_COLS : ℕ := 6

/-- `const MAX_IMAGES = GRID_ROWS * GRID_COLS` -/
def MAX_IMAGES : ℕ := GRID_ROWS * GRID_COLS

/-- `const MARGIN = 12` -/
def MARGIN : ℕ := 12

/-- `const CELL_PADDING = 4` -/
def CELL_PADDING : ℕ := 4

/-- `const CELL_HEIGHT = 175` -/
def CELL_HEIGHT : ℕ := 175

/-- `const CELL_WIDTH = 228` -/
def CELL_WIDTH : ℕ := 228

/-- `const GRID_HEIGHT = (GRID_ROWS * CELL_HEIGHT) + ((GRID_ROWS - 1) * CELL_PADDING)` -/
def GRID_HEIGHT : ℕ := GRID_ROWS * CELL_HEIGHT + (GRID_ROWS - 1) * CELL_PADDING

/-- RGB colour triple, as used for sharp backgrounds. -/
structure RGB where
  r : ℕ
  g : ℕ
  b : ℕ
  deriving DecidableEq, Repr

/-- `const WHITE = { r: 255, g: 255, b: 255 }` -/
def WHITE : RGB := ⟨255, 255, 255⟩

/-- The generalisation of the source's canvas size computation to an arbitrary
physical sheet spec: the source computes `SIZE_INCHES = SIZE_MM / 25.4` and then
`IMAGE_SIZE = Math.round(SIZE_INCHES * DPI)`; `canvasPx` performs the same two
steps for arbitrary positive `size_mm` and `dpi`. -/
def canvasPx (size_mm dpi : ℚ) : ℤ := round (size_mm / 25.4 * dpi)

/-- The base canvas created by `sharp({ create: ... })`: `IMAGE_SIZE` square,
3 channels, white background. -/
structure CanvasSpec where
  width : ℕ
  height : ℕ
  channels : ℕ
  background : RGB
  deriving DecidableEq, Repr

/-- `sharp({ create: { width: IMAGE_SIZE, height: IMAGE_SIZE, channels: 3, background: WHITE } })` -/
def baseCanvas : CanvasSpec := ⟨IMAGE_SIZE, IMAGE_SIZE, 3, WHITE⟩

/-- `const footerStartY = MARGIN + GRID_HEIGHT` -/
def footerStartY : ℕ := MARGIN + GRID_HEIGHT

/-- `const footerHeight = IMAGE_SIZE - footerStartY - MARGIN` -/
def footerHeight : ℕ := IMAGE_SIZE - footerStartY - MARGIN

/-- `const footerY = footerStartY + 20` -/
def footerY : ℕ := footerStartY + 20

lemma round_IMAGE_SIZE : round (SIZE_INCHES * (DPI : ℚ)) = 1417 := by
  rw [round_eq, show SIZE_INCHES * (DPI : ℚ) = 180000 / 127 by norm_num [SIZE_INCHES, SIZE_MM, DPI]]
  rw [Int.floor_eq_iff]
  norm_num

lemma IMAGE_SIZE_eq : IMAGE_SIZE = 1417 := by
  rw [IMAGE_SIZE, round_IMAGE_SIZE]
  rfl

lemma GRID_HEIGHT_eq : GRID_HEIGHT = 1070 := by decide

/-! ### Source images and the thumbnail pipeline -/

/-- A source image as the compositor sees it: the pixel dimensions reported by
`sharp(...).metadata()`, plus whether sharp can decode the file at all (the
`try` block around each image either succeeds or throws). -/
structure SrcImage where
  width : ℕ
  height : ℕ
  ok : Bool
  deriving DecidableEq, Repr

/-- `if (metadata.height > metadata.width) processedImage = processedImage.rotate(90)`:
whether the 90-degree clockwise rotation is applied. -/
def needsRotate (img : SrcImage) : Bool := decide (img.width < img.height)

/-- Dimensions of the image after the conditional `rotate(90)`: a 90-degree
rotation swaps width and height, otherwise they are unchanged. -/
def rotatedSize (img : SrcImage) : ℕ × ℕ :=
  if img.width < img.height then (img.height, img.width) else (img.width, img.height)

/-- The uniform scale factor of sharp's `fit: 'contain'` resize into a `W` by
`H` box: the image is scaled by `min (W/w) (H/h)` so that it fits inside the
box while preserving aspect ratio. -/
def containScale (w h W H : ℕ) : ℚ := min ((W : ℚ) / (w : ℚ)) ((H : ℚ) / (h : ℚ))

/-- The pixel dimensions of the scaled image content inside the letterboxed
thumbnail produced by `resize(thumbWidth, thumbHeight, { fit: 'contain' })`:
both dimensions scaled by the same `containScale` factor and rounded. -/
def containContent (w h W H : ℕ) : ℕ × ℕ :=
  ((round ((w : ℚ) * containScale w h W H)).toNat,
   (round ((h : ℚ) * containScale w h W H)).toNat)

/-- The letterboxed thumbnail raster delivered by
`processedImage.resize(thumbWidth, thumbHeight, { fit: 'contain', background: WHITE })`:
an exact `CELL_WIDTH` by `CELL_HEIGHT` raster whose image content occupies a
centred `contentW` by `contentH` box, the rest filled with the background. -/
structure Thumb where
  width : ℕ
  height : ℕ
  contentW : ℕ
  contentH : ℕ
  background : RGB
  deriving DecidableEq, Repr

/-- The thumbnail built for one decodable source image: conditional rotation
followed by the contain-fit resize into `CELL_WIDTH` by `CELL_HEIGHT`. -/
def makeThumb (img : SrcImage) : Thumb :=
  let wh := rotatedSize img
  let c := containContent wh.1 wh.2 CELL_WIDTH CELL_HEIGHT
  ⟨CELL_WIDTH, CELL_HEIGHT, c.1, c.2, WHITE⟩

/-! ### Metadata and the footer -/

/-- The metadata record collected by `main`: each `question` answer is either a
trimmed non-empty string or `null`.  Fields are modelled as `Option String`,
`none` standing for JS `null`. -/
structure Metadata where
  serialNumber : Option String
  laboratory : Option String
  date : Option String
  notes : Option String
  deriving DecidableEq, Repr

/-- JS truthiness of a `string | null` value: `null` and `""` are falsy, every
other string is truthy. -/
def truthy : Option String → Bool
  | none => false
  | some s => !s.isEmpty

/-- The condition `metadata.serialNumber || metadata.laboratory || metadata.date || metadata.notes`
guarding both the footer SVG and the decorative line. -/
def hasMeta (md : Metadata) : Bool :=
  truthy md.serialNumber || truthy md.laboratory || truthy md.date || truthy md.notes

/-! ### XML escaping (`escapeXml`) -/

/-- The double-quote character. -/
def quoteChar : Char := Char.ofNat 34

/-- The apostrophe character. -/
def aposChar : Char := Char.ofNat 39

/-- One global single-character regex replacement,
`text.replace(/c/g, r)`, on a list of characters. -/
def replaceAll (t : Char) (r : List Char) : List Char → List Char
  | [] => []
  | c :: cs => (if c = t then r else [c]) ++ replaceAll t r cs

/-- `escapeXml` on character lists: the source's five chained global
replacements, in source order (`&` first, then `<`, `>`, `"`, apostrophe). -/
def escapeXmlL (cs : List Char) : List Char :=
  replaceAll aposChar "&apos;".data
    (replaceAll quoteChar "&quot;".data
      (replaceAll '>' "&gt;".data
        (replaceAll '<' "&lt;".data
          (replaceAll '&' "&amp;".data cs))))

/-- `function escapeXml(text)`: chained replacement of the five XML
metacharacters with their entities. -/
def escapeXml (s : String) : String := ⟨escapeXmlL s.data⟩

/-- Specification-side single-pass escaping: each of the five metacharacters
maps to its entity, every other character to itself. -/
def escChar (c : Char) : List Char :=
  if c = '&' then "&amp;".data
  else if c = '<' then "&lt;".data
  else if c = '>' then "&gt;".data
  else if c = quoteChar then "&quot;".data
  else if c = aposChar then "&apos;".data
  else [c]

/-- Specification-side escaping of a whole character list, one character at a
time. -/
def escAll : List Char → List Char
  | [] => []
  | c :: cs => escChar c ++ escAll cs

/-! ### Footer line layout (`createFooterSVG`) -/

/-- One rendered footer line: a label `<text>` element and a value `<text>`
element sharing a baseline `y`, with the font sizes and numeric font weights
(`normal` = 400, `bold` = 700) that the source writes into the SVG. -/
structure FooterLine where
  label : String
  value : String
  labelFontSize : ℕ
  labelWeight : ℕ
  valueFontSize : ℕ
  valueWeight : ℕ
  y : ℕ
  deriving DecidableEq, Repr

/-- The list of lines emitted by `createFooterSVG(serialNumber, laboratory,
date, notes, ...)`: `yPos` starts at 60; each truthy field appends one line at
the current `yPos` and advances it (68 after the roll line, 63 after the
others); falsy fields contribute nothing and leave `yPos` unchanged. -/
def footerLines (md : Metadata) : List FooterLine :=
  let y0 : ℕ := 60
  let p1 : List FooterLine × ℕ :=
    if truthy md.serialNumber then
      ([⟨"Roll:", escapeXml (md.serialNumber.getD ""), 58, 400, 84, 700, y0⟩], y0 + 68)
    else ([], y0)
  let p2 : List FooterLine × ℕ :=
    if truthy md.laboratory then
      (p1.1 ++ [⟨"Scaned by:", escapeXml (md.laboratory.getD ""), 58, 400, 58, 300, p1.2⟩], p1.2 + 63)
    else p1
  let p3 : List FooterLine × ℕ :=
    if truthy md.date then
      (p2.1 ++ [⟨"Date:", escapeXml (md.date.getD ""), 58, 400, 58, 300, p2.2⟩], p2.2 + 63)
    else p2
  let p4 : List FooterLine × ℕ :=
    if truthy md.notes then
      (p3.1 ++ [⟨"Notes:", escapeXml (md.notes.getD ""), 58, 400, 58, 300, p3.2⟩], p3.2)
    else p3
  p4.1

/-! ### The composite list built by `createContactSheet` -/

/-- What a composite entry overlays onto the canvas. -/
inductive OverlayKind where
  | thumb (t : Thumb)
  | footerSVG (md : Metadata)
  | ruleSVG
  deriving DecidableEq, Repr

/-- One entry of the `compositeImages` array: an overlay with its `top` and
`left` placement. -/
structure Composite where
  kind : OverlayKind
  top : ℕ
  left : ℕ
  deriving DecidableEq, Repr

/-- `const x = MARGIN + col * (CELL_WIDTH + CELL_PADDING)` with
`col = i % GRID_COLS`. -/
def cellX (i : ℕ) : ℕ := MARGIN + (i % GRID_COLS) * (CELL_WIDTH + CELL_PADDING)

/-- `const y = MARGIN + row * (CELL_HEIGHT + CELL_PADDING)` with
`row = Math.floor(i / GRID_COLS)`. -/
def cellY (i : ℕ) : ℕ := MARGIN + (i / GRID_COLS) * (CELL_HEIGHT + CELL_PADDING)

/-- The per-image loop of `createContactSheet`, starting at index `k`: each
decodable image pushes its thumbnail composite at its cell origin; a
non-decodable image pushes nothing (the `catch` only warns) and the loop
continues. -/
def thumbOps : ℕ → List SrcImage → List Composite
  | _, [] => []
  | k, img :: rest =>
      (if img.ok then [⟨.thumb (makeThumb img), cellY k, cellX k⟩] else [])
        ++ thumbOps (k + 1) rest

/-- The warnings emitted by the per-image loop: one `console.warn` per image
whose processing threw. -/
def skippedWarnings (imgs : List SrcImage) : List SrcImage :=
  imgs.filter (fun img => !img.ok)

/-- The full `compositeImages` array at the end of `createContactSheet`: the
thumbnail ops in loop order, then (under `hasMeta`) the footer SVG at
`(footerY, MARGIN)`, then (under the same condition) the decorative line at
`(footerStartY + 8, MARGIN)`. -/
def compositeOps (imgs : List SrcImage) (md : Metadata) : List Composite :=
  thumbOps 0 imgs
    ++ (if hasMeta md then [⟨.footerSVG md, footerY, MARGIN⟩] else [])
    ++ (if hasMeta md then [⟨.ruleSVG, footerStartY + 8, MARGIN⟩] else [])

/-! ### Directory filtering (`getImages`) -/

/-- `const imageExtensions = ['.jpg', '.jpeg', '.JPG', '.JPEG']` -/
def imageExtensions : List String := [".jpg", ".jpeg", ".JPG", ".JPEG"]

/-- Index of the last occurrence of `c` in a character list, if any. -/
def lastIndexOf (c : Char) : List Char → Option ℕ
  | [] => none
  | x :: xs =>
      match lastIndexOf c xs with
      | some i => some (i + 1)
      | none => if x = c then some 0 else none

/-- Node's `path.extname` on a bare filename: the suffix from the last dot,
or `""` when there is no dot or the only dot is the leading character of a
dotfile. -/
def extname (s : String) : String :=
  match lastIndexOf '.' s.data with
  | none => ""
  | some 0 => ""
  | some i => ⟨s.data.drop i⟩

/-- Whether `getImages` keeps a file: `imageExtensions.includes(path.extname(file))`. -/
def isImageFile (f : String) : Bool := imageExtensions.contains (extname f)

/-- `getImages`: filter the directory listing by extension, keeping listing
order, then `slice(0, MAX_IMAGES)`. -/
def getImages (files : List String) : List String :=
  (files.filter isImageFile).take MAX_IMAGES

/-! ### Theorems -/

/-- C2.  The claim states `footer_height = canvas_px - footer_top - margin_px`
for the composited footer top `footer_top = margin_px + grid_height_px + 20`,
and that the footer block therefore ends exactly at `canvas_px - margin_px`.
The code instead computes `footerHeight` from `footerStartY` (without the
20px offset), so the block composited at `footerY` with height `footerHeight`
ends 20px past `canvas_px - margin_px`. -/
theorem footer_bounds_counterexample :
    footerHeight ≠ IMAGE_SIZE - footerY - MARGIN ∧
    footerY + footerHeight ≠ IMAGE_SIZE - MARGIN ∧
    footerY + footerHeight > IMAGE_SIZE - MARGIN := by
  refine ⟨?_, ?_, ?_⟩ <;>
    simp only [footerHeight, footerY, footerStartY, MARGIN, IMAGE_SIZE_eq, GRID_HEIGHT_eq] <;>
    omega

/-- C2 (amended).  The footer SVG is composited at
`footer_top = margin_px + grid_height_px + 20`, but its height is computed
before the 20px offset, as `canvas_px - (margin_px + grid_height_px) - margin_px`;
consequently the footer block ends at `canvas_px - margin_px + 20`, i.e. 20px
below the bottom margin line and 8px past the bottom canvas edge. -/
theorem footer_bounds_corrected :
    footerY = MARGIN + GRID_HEIGHT + 20 ∧
    footerHeight = IMAGE_SIZE - (MARGIN + GRID_HEIGHT) - MARGIN ∧
    footerY + footerHeight = (IMAGE_SIZE - MARGIN) + 20 ∧
    (IMAGE_SIZE - MARGIN) + 20 = IMAGE_SIZE + 8 := by
  refine ⟨?_, ?_, ?_, ?_⟩ <;>
    · simp only [footerHeight, footerY, footerStartY, MARGIN, IMAGE_SIZE_eq, GRID_HEIGHT_eq]
      try omega

/-- C3.  For every physical spec with positive `size_mm` and `dpi`, the canvas
pixel size is exactly `round (size_mm / 25.4 * dpi)` (and, being a pure
function of its inputs, deterministic); at the source's constants
`size_mm = 120`, `dpi = 300` this yields 1417, agreeing with `IMAGE_SIZE`, and
the base canvas is `IMAGE_SIZE` square with 3 channels on a white background. -/
theorem canvas_px_spec (s d : ℚ) (_hs : 0 < s) (_hd : 0 < d) :
    canvasPx s d = round (s / 25.4 * d) ∧
    canvasPx 120 300 = 1417 ∧
    (canvasPx (SIZE_MM : ℚ) (DPI : ℚ)).toNat = IMAGE_SIZE ∧
    IMAGE_SIZE = 1417 ∧
    baseCanvas = ⟨IMAGE_SIZE, IMAGE_SIZE, 3, WHITE⟩ := by
  refine ⟨rfl, ?_, rfl, IMAGE_SIZE_eq, rfl⟩
  have h : (120 : ℚ) / 25.4 * 300 = SIZE_INCHES * (DPI : ℚ) := by
    norm_num [SIZE_INCHES, SIZE_MM, DPI]
  rw [canvasPx, h, round_IMAGE_SIZE]

/-- C3 witness at the concrete spec `size_mm = 120`, `dpi = 300`. -/
theorem canvas_px_spec_check : canvasPx 120 300 = 1417 :=
  (canvas_px_spec 120 300 (by norm_num) (by norm_num)).2.1

/-- C4.  An image is rotated (by sharp's clockwise `rotate(90)`, which swaps
width and height) exactly when its reported height strictly exceeds its width;
when height is at most width it is left untouched.  Either way the dimensions
entering the resize step satisfy height ≤ width, i.e. every thumbnail's
content is landscape-oriented. -/
theorem rotation_landscape (img : SrcImage) :
    needsRotate img = decide (img.width < img.height) ∧
    rotatedSize img =
      (if img.width < img.height then (img.height, img.width)
       else (img.width, img.height)) ∧
    (rotatedSize img).2 ≤ (rotatedSize img).1 := by
  refine ⟨rfl, rfl, ?_⟩
  rw [rotatedSize]
  split <;> omega

/-- Whether a composite entry is the footer SVG. -/
def isFooterOp (c : Composite) : Bool :=
  match c.kind with
  | .footerSVG _ => true
  | _ => false

/-- Whether a composite entry is the decorative separator line. -/
def isRuleOp (c : Composite) : Bool :=
  match c.kind with
  | .ruleSVG => true
  | _ => false

lemma thumbOps_kind {c : Composite} :
    ∀ (k : ℕ) (imgs : List SrcImage), c ∈ thumbOps k imgs →
      ∃ t, c.kind = OverlayKind.thumb t := by
  intro k imgs
  induction imgs generalizing k with
  | nil => simp [thumbOps]
  | cons img rest ih =>
      intro hc
      rw [thumbOps] at hc
      rcases List.mem_append.mp hc with h | h
      · rcases Bool.eq_false_or_eq_true img.ok with hok | hok <;> simp [hok] at h
        subst h
        exact ⟨makeThumb img, rfl⟩
      · exact ih _ h

lemma thumbOps_any_footer (k : ℕ) (imgs : List SrcImage) :
    (thumbOps k imgs).any isFooterOp = false := by
  rw [List.any_eq_false]
  intro c hc
  obtain ⟨t, ht⟩ := thumbOps_kind k imgs hc
  simp [isFooterOp, ht]

lemma thumbOps_any_rule (k : ℕ) (imgs : List SrcImage) :
    (thumbOps k imgs).any isRuleOp = false := by
  rw [List.any_eq_false]
  intro c hc
  obtain ⟨t, ht⟩ := thumbOps_kind k imgs hc
  simp [isRuleOp, ht]

/-- C6.  `getImages` keeps exactly the directory entries whose `path.extname`
is one of `.jpg`, `.jpeg`, `.JPG`, `.JPEG`, in directory-listing order (the
result is a sublist of the listing), and caps the result at the first
`MAX_IMAGES = 36` qualifying entries, silently dropping the rest; when at
most 36 qualify, every qualifying file is kept. -/
theorem image_filter_spec (files : List String) :
    (getImages files).Sublist files ∧
    (∀ f ∈ getImages files,
        extname f = ".jpg" ∨ extname f = ".jpeg" ∨
        extname f = ".JPG" ∨ extname f = ".JPEG") ∧
    getImages files = (files.filter isImageFile).take MAX_IMAGES ∧
    (getImages files).length = min MAX_IMAGES (files.filter isImageFile).length ∧
    ((files.filter isImageFile).length ≤ MAX_IMAGES →
        getImages files = files.filter isImageFile) := by
  refine ⟨?_, ?_, rfl, ?_, ?_⟩
  · exact ((List.take_sublist _ _).trans (List.filter_sublist _))
  · intro f hf
    have hmem := (List.take_sublist _ _).subset hf
    have himg : isImageFile f = true := List.of_mem_filter hmem
    simpa [isImageFile, imageExtensions, extname] using himg
  · exact List.length_take _ _
  · intro h
    exact List.take_of_length_le h

/-- C6 witness: a concrete listing where a PNG and a mixed-case extension are
dropped and the JPEGs survive in order. -/
theorem image_filter_spec_check :
    (extname "a.jpg" = ".jpg" ∨ extname "a.jpg" = ".jpeg" ∨
      extname "a.jpg" = ".JPG" ∨ extname "a.jpg" = ".JPEG") ∧
    getImages ["a.jpg", "b.png", "c.JPEG", "d.Jpg"] = ["a.jpg", "c.JPEG"] :=
  ⟨(image_filter_spec ["a.jpg", "b.png", "c.JPEG", "d.Jpg"]).2.1 "a.jpg" (by decide),
   ((image_filter_spec ["a.jpg", "b.png", "c.JPEG", "d.Jpg"]).2.2.2.2 (by decide)).trans
     (by decide)⟩

/-- C7.  The footer SVG and the separator rule are appended to the composite
list exactly when at least one metadata field is truthy; with all four fields
absent or empty the composite list is just the thumbnail list, so the
resulting canvas is the one with the footer region left blank and no rule. -/
theorem footer_iff_metadata (imgs : List SrcImage) (md : Metadata) :
    ((compositeOps imgs md).any isFooterOp = hasMeta md) ∧
    ((compositeOps imgs md).any isRuleOp = hasMeta md) ∧
    (hasMeta md = false → compositeOps imgs md = thumbOps 0 imgs) := by
  rcases Bool.eq_false_or_eq_true (hasMeta md) with h | h <;>
    simp [compositeOps, h, thumbOps_any_footer, thumbOps_any_rule, isFooterOp, isRuleOp]

/-- C7 witness: with every field null, the composite list of a one-image run
is exactly its thumbnail list. -/
theorem footer_iff_metadata_check :
    compositeOps [⟨3, 2, true⟩] ⟨none, none, none, none⟩ =
      thumbOps 0 [⟨3, 2, true⟩] :=
  (footer_iff_metadata [⟨3, 2, true⟩] ⟨none, none, none, none⟩).2.2 (by decide)

/-- The number of truthy metadata fields. -/
def presentCount (md : Metadata) : ℕ :=
  (if truthy md.serialNumber then 1 else 0) + (if truthy md.laboratory then 1 else 0) +
    (if truthy md.date then 1 else 0) + (if truthy md.notes then 1 else 0)

/-- The labels of the truthy metadata fields, in the fixed source order
serial number, laboratory, date, notes. -/
def presentLabels (md : Metadata) : List String :=
  (if truthy md.serialNumber then ["Roll:"] else []) ++
    (if truthy md.laboratory then ["Scaned by:"] else []) ++
    (if truthy md.date then ["Date:"] else []) ++
    (if truthy md.notes then ["Notes:"] else [])

/-- C8.  The footer holds exactly one line per truthy metadata field, in
source order with absent fields omitted outright (the labels of the rendered
lines are exactly the labels of the present fields, and baselines strictly
increase, so lines compact upward with no blank placeholders); the
serial-number line's value is set at font size 84 and weight 700 (bold),
strictly larger and heavier than the uniform size-58 weight-300 style shared
by the laboratory, date and notes values. -/
theorem footer_line_layout (md : Metadata) :
    (footerLines md).length = presentCount md ∧
    (footerLines md).map FooterLine.label = presentLabels md ∧
    (∀ l ∈ footerLines md,
        (l.label = "Roll:" → l.valueFontSize = 84 ∧ l.valueWeight = 700) ∧
        (l.label ≠ "Roll:" → l.valueFontSize = 58 ∧ l.valueWeight = 300)) ∧
    (∀ l ∈ footerLines md, ∀ l2 ∈ footerLines md,
        l.label = "Roll:" → l2.label ≠ "Roll:" →
        l2.valueFontSize < l.valueFontSize ∧ l2.valueWeight < l.valueWeight) ∧
    (footerLines md).Chain' (fun a b => a.y < b.y) := by
  rcases Bool.eq_false_or_eq_true (truthy md.serialNumber) with h1 | h1 <;>
    rcases Bool.eq_false_or_eq_true (truthy md.laboratory) with h2 | h2 <;>
      rcases Bool.eq_false_or_eq_true (truthy md.date) with h3 | h3 <;>
        rcases Bool.eq_false_or_eq_true (truthy md.notes) with h4 | h4 <;>
          simp [footerLines, presentCount, presentLabels, h1, h2, h3, h4]

/-- C8 witness: metadata with serial number and date present renders exactly
the two corresponding lines, the roll value emphasized. -/
theorem footer_line_layout_check :
    (footerLines ⟨some "CS-001", none, some "2024", none⟩).map FooterLine.label =
      presentLabels ⟨some "CS-001", none, some "2024", none⟩ ∧
    ∀ l ∈ footerLines ⟨some "CS-001", none, some "2024", none⟩,
      l.label = "Roll:" → l.valueFontSize = 84 ∧ l.valueWeight = 700 :=
  ⟨(footer_line_layout ⟨some "CS-001", none, some "2024", none⟩).2.1,
   fun l hl hroll =>
     ((footer_line_layout ⟨some "CS-001", none, some "2024", none⟩).2.2.1 l hl).1 hroll⟩

lemma replaceAll_append (t : Char) (r xs ys : List Char) :
    replaceAll t r (xs ++ ys) = replaceAll t r xs ++ replaceAll t r ys := by
  induction xs with
  | nil => rfl
  | cons c cs ih => simp [replaceAll, ih]

lemma escapeXml_head (c : Char) :
    replaceAll aposChar "&apos;".data
      (replaceAll quoteChar "&quot;".data
        (replaceAll '>' "&gt;".data
          (replaceAll '<' "&lt;".data
            (if c = '&' then "&amp;".data else [c])))) = escChar c := by
  by_cases h1 : c = '&'
  · subst h1; decide
  by_cases h2 : c = '<'
  · subst h2; decide
  by_cases h3 : c = '>'
  · subst h3; decide
  by_cases h4 : c = quoteChar
  · subst h4; decide
  by_cases h5 : c = aposChar
  · subst h5; decide
  simp [escChar, replaceAll, h1, h2, h3, h4, h5]

lemma escapeXmlL_eq_escAll (cs : List Char) : escapeXmlL cs = escAll cs := by
  induction cs with
  | nil => rfl
  | cons c cs ih =>
      rw [escapeXmlL, show replaceAll '&' "&amp;".data (c :: cs) =
            (if c = '&' then "&amp;".data else [c]) ++ replaceAll '&' "&amp;".data cs from rfl,
          replaceAll_append, replaceAll_append, replaceAll_append, replaceAll_append]
      rw [show escAll (c :: cs) = escChar c ++ escAll cs from rfl, ← ih, escapeXml_head,
          escapeXmlL]

lemma escChar_no_raw (c d : Char) (hd : d ∈ escChar c) :
    d ≠ '<' ∧ d ≠ '>' ∧ d ≠ quoteChar ∧ d ≠ aposChar := by
  rw [escChar] at hd
  by_cases h1 : c = '&'
  · simp only [h1, if_true] at hd; fin_cases hd <;> decide
  rw [if_neg h1] at hd
  by_cases h2 : c = '<'
  · simp only [h2, if_true] at hd; fin_cases hd <;> decide
  rw [if_neg h2] at hd
  by_cases h3 : c = '>'
  · simp only [h3, if_true] at hd; fin_cases hd <;> decide
  rw [if_neg h3] at hd
  by_cases h4 : c = quoteChar
  · simp only [h4, if_true] at hd; fin_cases hd <;> decide
  rw [if_neg h4] at hd
  by_cases h5 : c = aposChar
  · simp only [h5, if_true] at hd; fin_cases hd <;> decide
  rw [if_neg h5] at hd
  rcases List.mem_singleton.mp hd with rfl
  exact ⟨h2, h3, h4, h5⟩

lemma escAll_no_raw (cs : List Char) (d : Char) (hd : d ∈ escAll cs) :
    d ≠ '<' ∧ d ≠ '>' ∧ d ≠ quoteChar ∧ d ≠ aposChar := by
  induction cs with
  | nil => simp [escAll] at hd
  | cons c cs ih =>
      rw [escAll] at hd
      rcases List.mem_append.mp hd with h | h
      · exact escChar_no_raw c d h
      · exact ih h

lemma footerLines_value (md : Metadata) (l : FooterLine) (hl : l ∈ footerLines md) :
    l.value = escapeXml (md.serialNumber.getD "") ∨
    l.value = escapeXml (md.laboratory.getD "") ∨
    l.value = escapeXml (md.date.getD "") ∨
    l.value = escapeXml (md.notes.getD "") := by
  rcases Bool.eq_false_or_eq_true (truthy md.serialNumber) with h1 | h1 <;>
    rcases Bool.eq_false_or_eq_true (truthy md.laboratory) with h2 | h2 <;>
      rcases Bool.eq_false_or_eq_true (truthy md.date) with h3 | h3 <;>
        rcases Bool.eq_false_or_eq_true (truthy md.notes) with h4 | h4 <;>
          simp [footerLines, h1, h2, h3, h4] at hl <;>
            (repeat' (first | (rcases hl with rfl | hl) | (subst hl))) <;> simp

/-- C9.  `escapeXml` coincides, on every input string, with the single-pass
substitution that sends each of the five XML metacharacters to its entity and
leaves every other character alone; consequently its output never contains a
raw `<`, `>`, double quote or apostrophe, and every value string rendered in
the footer is the `escapeXml` image of the corresponding user-supplied field. -/
theorem escape_xml_complete (s : String) :
    escapeXml s = ⟨escAll s.data⟩ ∧
    '<' ∉ (escapeXml s).data ∧ '>' ∉ (escapeXml s).data ∧
    quoteChar ∉ (escapeXml s).data ∧ aposChar ∉ (escapeXml s).data ∧
    (∀ (md : Metadata), ∀ l ∈ footerLines md, ∃ raw : String, l.value = escapeXml raw) := by
  have he : escapeXml s = ⟨escAll s.data⟩ := by
    rw [escapeXml, escapeXmlL_eq_escAll]
  refine ⟨he, ?_, ?_, ?_, ?_, ?_⟩
  · intro h; rw [he] at h; exact (escAll_no_raw s.data _ h).1 rfl
  · intro h; rw [he] at h; exact (escAll_no_raw s.data _ h).2.1 rfl
  · intro h; rw [he] at h; exact (escAll_no_raw s.data _ h).2.2.1 rfl
  · intro h; rw [he] at h; exact (escAll_no_raw s.data _ h).2.2.2 rfl
  · intro md l hl
    rcases footerLines_value md l hl with h | h | h | h <;> exact ⟨_, h⟩

lemma thumbOps_eq (k : ℕ) (imgs : List SrcImage) :
    thumbOps k imgs =
      ((imgs.enumFrom k).filter (fun p => p.2.ok)).map
        (fun p => ⟨.thumb (makeThumb p.2), cellY p.1, cellX p.1⟩) := by
  induction imgs generalizing k with
  | nil => rfl
  | cons img rest ih =>
      rw [thumbOps, ih (k + 1)]
      rcases Bool.eq_false_or_eq_true img.ok with h | h <;>
        simp [List.enumFrom, List.filter_cons, h]

lemma thumbOps_length (k : ℕ) (imgs : List SrcImage) :
    (thumbOps k imgs).length = imgs.countP (fun img => img.ok) := by
  induction imgs generalizing k with
  | nil => rfl
  | cons img rest ih =>
      rw [thumbOps]
      rcases Bool.eq_false_or_eq_true img.ok with h | h <;>
        simp [h, ih, List.countP_cons]

lemma cell_origin_injective {i j : ℕ} (hx : cellX i = cellX j) (hy : cellY i = cellY j) :
    i = j := by
  rw [cellX, cellX] at hx
  rw [cellY, cellY] at hy
  simp only [MARGIN, GRID_COLS, CELL_WIDTH, CELL_HEIGHT, CELL_PADDING] at hx hy
  omega

/-- C1.  With every input image decodable and `1 ≤ N ≤ 36` images, the loop
emits exactly `N` thumbnail composites, and the `i`-th composite (0-based)
carries the `i`-th image's thumbnail at
`left = MARGIN + (i % GRID_COLS) * (CELL_WIDTH + CELL_PADDING)` and
`top = MARGIN + (i / GRID_COLS) * (CELL_HEIGHT + CELL_PADDING)`, i.e. cells
are populated in row-major order from cell (0,0). -/
theorem grid_placement_row_major (imgs : List SrcImage)
    (hok : ∀ img ∈ imgs, img.ok = true)
    (_hlen1 : 1 ≤ imgs.length) (_hlen36 : imgs.length ≤ MAX_IMAGES) :
    (thumbOps 0 imgs).length = imgs.length ∧
    ∀ i : ℕ, i < imgs.length →
      ((thumbOps 0 imgs)[i]?).map (fun op => (op.left, op.top)) =
          some (MARGIN + (i % GRID_COLS) * (CELL_WIDTH + CELL_PADDING),
                MARGIN + (i / GRID_COLS) * (CELL_HEIGHT + CELL_PADDING)) ∧
      ((thumbOps 0 imgs)[i]?).map Composite.kind =
          (imgs[i]?).map (fun img => OverlayKind.thumb (makeThumb img)) := by
  have hfix : (imgs.enumFrom 0).filter (fun p => p.2.ok) = imgs.enumFrom 0 := by
    refine List.filter_eq_self.mpr ?_
    rw [List.forall_mem_enumFrom]
    intro i hi
    exact hok _ (List.getElem_mem hi)
  rw [thumbOps_eq, hfix]
  refine ⟨by simp [List.enumFrom_length], ?_⟩
  intro i hi
  have hgi : imgs[i]? = some imgs[i] := List.getElem?_eq_getElem hi
  constructor
  · simp [List.getElem?_map, List.getElem?_enumFrom, hgi, cellX, cellY]
  · simp [List.getElem?_map, List.getElem?_enumFrom, hgi]

/-- C1 witness: two decodable images land at cells 0 and 1. -/
theorem grid_placement_row_major_check :
    (thumbOps 0 [⟨300, 200, true⟩, ⟨200, 300, true⟩]).length = 2 ∧
    ((thumbOps 0 [⟨300, 200, true⟩, ⟨200, 300, true⟩])[1]?).map
        (fun op => (op.left, op.top)) = some (244, 12) := by
  have h := grid_placement_row_major [⟨300, 200, true⟩, ⟨200, 300, true⟩]
    (by decide) (by decide) (by decide)
  refine ⟨h.1, ?_⟩
  rw [(h.2 1 (by decide)).1]
  decide

/-- C10.  A non-decodable image is skipped in isolation: the loop emits one
thumbnail composite per decodable image and one warning per failed image, no
composite is placed at the failed image's cell origin (the cell stays at the
white canvas background), and every decodable image — before or after the
failure — still gets its thumbnail composite at its own cell origin. -/
theorem per_image_failure_isolation (imgs : List SrcImage) (i : ℕ)
    (hi : i < imgs.length) (hbad : imgs[i].ok = false) :
    (thumbOps 0 imgs).length = imgs.countP (fun img => img.ok) ∧
    (skippedWarnings imgs).length = imgs.countP (fun img => !img.ok) ∧
    (∀ op ∈ thumbOps 0 imgs, ¬(op.left = cellX i ∧ op.top = cellY i)) ∧
    (∀ j, (hj : j < imgs.length) → imgs[j].ok = true →
        ∃ op ∈ thumbOps 0 imgs,
          op.left = cellX j ∧ op.top = cellY j ∧
          op.kind = OverlayKind.thumb (makeThumb imgs[j])) := by
  refine ⟨thumbOps_length 0 imgs, (List.countP_eq_length_filter _ _).symm, ?_, ?_⟩
  · intro op hop hcell
    rw [thumbOps_eq] at hop
    obtain ⟨⟨j, img⟩, hp, rfl⟩ := List.mem_map.mp hop
    obtain ⟨hpm, hpok⟩ := List.mem_filter.mp hp
    obtain ⟨hL, hT⟩ := hcell
    change cellX j = cellX i at hL
    change cellY j = cellY i at hT
    have hok2 : img.ok = true := by simpa using hpok
    have hji : j = i := cell_origin_injective hL hT
    have hjget : imgs[j]? = some img := by
      have hj0 : ((0 : ℕ) + j, img) ∈ imgs.enumFrom 0 := by simpa using hpm
      exact List.mk_add_mem_enumFrom_iff_getElem?.mp hj0
    rw [hji, List.getElem?_eq_getElem hi] at hjget
    have himg : imgs[i] = img := Option.some.inj hjget
    rw [← himg, hbad] at hok2
    exact Bool.false_ne_true hok2
  · intro j hj hjok
    rw [thumbOps_eq]
    refine ⟨⟨.thumb (makeThumb imgs[j]), cellY j, cellX j⟩, ?_, rfl, rfl, rfl⟩
    refine List.mem_map.mpr ⟨(j, imgs[j]), ?_, rfl⟩
    refine List.mem_filter.mpr ⟨?_, by simpa using hjok⟩
    have hj0 : ((0 : ℕ) + j, imgs[j]) ∈ imgs.enumFrom 0 :=
      List.mk_add_mem_enumFrom_iff_getElem?.mpr (List.getElem?_eq_getElem hj)
    simpa using hj0

/-- C10 witness: ten images with the fourth (index 3) corrupt yield nine
thumbnails and one warning. -/
theorem per_image_failure_isolation_check :
    (thumbOps 0 [⟨30, 20, true⟩, ⟨30, 20, true⟩, ⟨30, 20, true⟩, ⟨30, 20, false⟩,
        ⟨30, 20, true⟩, ⟨30, 20, true⟩, ⟨30, 20, true⟩, ⟨30, 20, true⟩,
        ⟨30, 20, true⟩, ⟨30, 20, true⟩]).length = 9 ∧
    (skippedWarnings [⟨30, 20, true⟩, ⟨30, 20, true⟩, ⟨30, 20, true⟩, ⟨30, 20, false⟩,
        ⟨30, 20, true⟩, ⟨30, 20, true⟩, ⟨30, 20, true⟩, ⟨30, 20, true⟩,
        ⟨30, 20, true⟩, ⟨30, 20, true⟩]).length = 1 := by
  have h := per_image_failure_isolation
    [⟨30, 20, true⟩, ⟨30, 20, true⟩, ⟨30, 20, true⟩, ⟨30, 20, false⟩,
      ⟨30, 20, true⟩, ⟨30, 20, true⟩, ⟨30, 20, true⟩, ⟨30, 20, true⟩,
      ⟨30, 20, true⟩, ⟨30, 20, true⟩] 3 (by decide) (by decide)
  exact ⟨h.1.trans (by decide), h.2.1.trans (by decide)⟩

lemma floor_half : ⌊(1 / 2 : ℚ)⌋ = 0 := by
  rw [Int.floor_eq_iff]
  norm_num

lemma round_natCast_rat (n : ℕ) : round ((n : ℚ)) = n := round_natCast n

lemma toNat_round_le {x : ℚ} {n : ℕ} (h : x ≤ (n : ℚ)) : (round x).toNat ≤ n := by
  rw [Int.toNat_le, round_eq]
  have h2 : ⌊x + 1 / 2⌋ ≤ ⌊(n : ℚ) + 1 / 2⌋ := Int.floor_le_floor (by linarith)
  have h3 : ⌊(n : ℚ) + 1 / 2⌋ = n := by
    rw [add_comm, Int.floor_add_nat, floor_half, zero_add]
  omega

lemma containContent_spec (w h W H : ℕ) (hw : 0 < w) (hh : 0 < h) :
    (containContent w h W H).1 ≤ W ∧ (containContent w h W H).2 ≤ H ∧
    ((containContent w h W H).1 = W ∨ (containContent w h W H).2 = H) := by
  have hwQ : (w : ℚ) ≠ 0 := Nat.cast_ne_zero.mpr hw.ne'
  have hhQ : (h : ℚ) ≠ 0 := Nat.cast_ne_zero.mpr hh.ne'
  have hw0 : (0 : ℚ) ≤ (h : ℚ) := Nat.cast_nonneg h
  have hw0w : (0 : ℚ) ≤ (w : ℚ) := Nat.cast_nonneg w
  rcases min_cases ((W : ℚ) / (w : ℚ)) ((H : ℚ) / (h : ℚ)) with ⟨hs, hle⟩ | ⟨hs, hlt⟩
  · -- the width ratio is the limiting one: content width is exactly W
    have hcw : (containContent w h W H).1 = W := by
      rw [containContent, containScale]
      simp only [hs]
      rw [mul_comm, div_mul_cancel₀ _ hwQ, round_natCast_rat, Int.toNat_natCast]
    have hch : (containContent w h W H).2 ≤ H := by
      rw [containContent, containScale]
      simp only [hs]
      refine toNat_round_le ?_
      calc (h : ℚ) * ((W : ℚ) / (w : ℚ)) ≤ (h : ℚ) * ((H : ℚ) / (h : ℚ)) :=
            mul_le_mul_of_nonneg_left hle hw0
        _ = H := by rw [mul_comm, div_mul_cancel₀ _ hhQ]
    exact ⟨le_of_eq hcw, hch, Or.inl hcw⟩
  · -- the height ratio is the limiting one: content height is exactly H
    have hch : (containContent w h W H).2 = H := by
      rw [containContent, containScale]
      simp only [hs]
      rw [mul_comm, div_mul_cancel₀ _ hhQ, round_natCast_rat, Int.toNat_natCast]
    have hcw : (containContent w h W H).1 ≤ W := by
      rw [containContent, containScale]
      simp only [hs]
      refine toNat_round_le ?_
      calc (w : ℚ) * ((H : ℚ) / (h : ℚ)) ≤ (w : ℚ) * ((W : ℚ) / (w : ℚ)) :=
            mul_le_mul_of_nonneg_left hlt.le hw0w
        _ = W := by rw [mul_comm, div_mul_cancel₀ _ hwQ]
    exact ⟨hcw, le_of_eq hch, Or.inr hch⟩

lemma rotatedSize_pos (img : SrcImage) (hw : 0 < img.width) (hh : 0 < img.height) :
    0 < (rotatedSize img).1 ∧ 0 < (rotatedSize img).2 := by
  rw [rotatedSize]
  split <;> exact ⟨by omega, by omega⟩

/-- C5.  For every decodable source of positive dimensions and arbitrary
aspect ratio, the thumbnail is an exact `CELL_WIDTH` by `CELL_HEIGHT` raster
letterboxed with solid white; its content box is scaled uniformly (one scale
factor applied to both axes, so never cropped or stretched non-uniformly),
exceeds neither cell dimension, and matches the cell exactly on at least one
axis. -/
theorem contain_fit_invariant (img : SrcImage)
    (hw : 0 < img.width) (hh : 0 < img.height) :
    (makeThumb img).width = CELL_WIDTH ∧
    (makeThumb img).height = CELL_HEIGHT ∧
    (makeThumb img).background = WHITE ∧
    (makeThumb img).contentW ≤ CELL_WIDTH ∧
    (makeThumb img).contentH ≤ CELL_HEIGHT ∧
    ((makeThumb img).contentW = CELL_WIDTH ∨ (makeThumb img).contentH = CELL_HEIGHT) ∧
    (∃ s : ℚ, 0 < s ∧
        (makeThumb img).contentW = (round (((rotatedSize img).1 : ℚ) * s)).toNat ∧
        (makeThumb img).contentH = (round (((rotatedSize img).2 : ℚ) * s)).toNat) := by
  obtain ⟨hrw, hrh⟩ := rotatedSize_pos img hw hh
  have hspec := containContent_spec (rotatedSize img).1 (rotatedSize img).2
    CELL_WIDTH CELL_HEIGHT hrw hrh
  have hsource : makeThumb img =
      ⟨CELL_WIDTH, CELL_HEIGHT,
        (containContent (rotatedSize img).1 (rotatedSize img).2 CELL_WIDTH CELL_HEIGHT).1,
        (containContent (rotatedSize img).1 (rotatedSize img).2 CELL_WIDTH CELL_HEIGHT).2,
        WHITE⟩ := rfl
  rw [hsource]
  refine ⟨rfl, rfl, rfl, hspec.1, hspec.2.1, hspec.2.2, ?_⟩
  refine ⟨containScale (rotatedSize img).1 (rotatedSize img).2 CELL_WIDTH CELL_HEIGHT,
    ?_, rfl, rfl⟩
  refine lt_min ?_ ?_ <;>
    exact div_pos (by norm_num [CELL_WIDTH, CELL_HEIGHT]) (by exact_mod_cast ‹_›)

/-- C5 witness: a 10:1 extreme-ratio source fills the cell width and stays
inside the cell height. -/
theorem contain_fit_invariant_check :
    (makeThumb ⟨1000, 100, true⟩).contentW ≤ CELL_WIDTH ∧
    (makeThumb ⟨1000, 100, true⟩).contentH ≤ CELL_HEIGHT ∧
    ((makeThumb ⟨1000, 100, true⟩).contentW = CELL_WIDTH ∨
      (makeThumb ⟨1000, 100, true⟩).contentH = CELL_HEIGHT) :=
  ⟨(contain_fit_invariant ⟨1000, 100, true⟩ (by decide) (by decide)).2.2.2.1,
   (contain_fit_invariant ⟨1000, 100, true⟩ (by decide) (by decide)).2.2.2.2.1,
   (contain_fit_invariant ⟨1000, 100, true⟩ (by decide) (by decide)).2.2.2.2.2.1⟩

/-- C4 witness: a portrait 200x300 source is rotated to landscape. -/
theorem rotation_landscape_check :
    needsRotate ⟨200, 300, true⟩ = true ∧
    (rotatedSize ⟨200, 300, true⟩).2 ≤ (rotatedSize ⟨200, 300, true⟩).1 :=
  ⟨(rotation_landscape ⟨200, 300, true⟩).1.trans (by decide),
   (rotation_landscape ⟨200, 300, true⟩).2.2⟩

/-- C9 witness: a concrete string with all five metacharacters is escaped
character by character. -/
theorem escape_xml_complete_check :
    escapeXml "a&b" = ⟨escAll "a&b".data⟩ ∧ '<' ∉ (escapeXml "a&b").data :=
  ⟨(escape_xml_complete "a&b").1, (escape_xml_complete "a&b").2.1⟩

end ContactSheet
